import Mathlib

/-!
Shallow embedding of the autocomplete/combobox controllers of the
`turbo-next` UI library:

* the multi-select controller `AutocompeteMultiple` and its inner
  `VirtualizedCommand` (`packages/ui/src/components/autocomplete-multiple.tsx`),
* the single-select controller `Autocomplete` and its inner
  `VirtualizedCommand` (the sibling autocomplete file).

JavaScript-specific behaviour is modelled explicitly: option values are
strings or numbers, truthiness of options and of the `maxSelected` number is
tracked (`0`, `''`, `null`/`undefined` are falsy), and callback invocations
(`onChange`, `onSearch`) are recorded as explicit payloads so that "the
callback was not fired" is distinguishable from "fired with an empty value".
-/

namespace TurboNext

/-- `type OptionValue = string | number` — the identity key of an option. -/
inductive OptionValue where
  | str : String → OptionValue
  | num : Int → OptionValue
deriving DecidableEq, Repr

/-- `interface OptionType { value: OptionValue; label: string }`. -/
structure OptionRecord where
  value : OptionValue
  label : String
deriving DecidableEq, Repr

/-- An option as accepted by both components: `T extends OptionType | string`. -/
inductive OptionT where
  | str : String → OptionT
  | record : OptionRecord → OptionT
deriving DecidableEq, Repr

/-- Default `getOptionValue`: a bare string is its own value, a record
contributes its `value` field. -/
def getOptionValueDefault : OptionT → OptionValue
  | .str s => .str s
  | .record r => r.value

/-- Default `getOptionLabel`: a bare string is its own label, a record
contributes its `label` field. -/
def getOptionLabelDefault : OptionT → String
  | .str s => s
  | .record r => r.label

/-- JavaScript truthiness of an option: the empty string is falsy, every
other string and every record object is truthy. -/
def truthyOption : OptionT → Bool
  | .str s => decide (s ≠ "")
  | .record _ => true

/-! ## Default option filter

`filterOption = (option, searchValue) =>
   getOptionLabel(option).toLowerCase().includes(searchValue.toLowerCase())`
and `filteredOptions = options.filter(o => filterOption(o, searchValue))`. -/

/-- JavaScript `String.prototype.toLowerCase`, modelled character-wise. -/
def strToLower (s : String) : String :=
  String.mk (s.data.map Char.toLower)

/-- JavaScript `String.prototype.includes`: `pat` occurs contiguously in
`hay` (the empty pattern occurs in every string). -/
def strIncludes (hay pat : String) : Bool :=
  (List.range (hay.data.length + 1)).any
    (fun i => pat.data == (hay.data.drop i).take pat.data.length)

/-- The default `filterOption` of both components, parameterised by the
label extractor. -/
def filterOptionDefault (gl : α → String) (option : α) (searchValue : String) : Bool :=
  strIncludes (strToLower (gl option)) (strToLower searchValue)

/-- `filteredOptions`: the options surviving the filter stage. -/
def filteredOptions (f : α → String → Bool) (options : List α) (searchValue : String) :
    List α :=
  options.filter (fun option => f option searchValue)

/-! ## Virtualized list geometry -/

/-- `listHeight = Math.min(Number.parseInt(height, 10), filteredOptions.length * 35)`
(both components); `height` is the parsed configured height. -/
def listHeight (height : Int) (itemCount : Nat) : Int :=
  min height ((itemCount : Int) * 35)

/-- Modelled from the spec: the list-virtualization primitive
(`useVirtualizer` of `@tanstack/react-virtual`, consumed as a black box) is
not part of this repository.  Per the spec it yields the `(index, offset,
size)` triples of the items whose extent `[i*itemSize, (i+1)*itemSize)`
overlaps the viewport `[scrollOffset, scrollOffset + viewportHeight]`
widened by `overscan` items on each side, recomputed from the current
`itemCount` each render. -/
def visibleWindow (itemCount itemSize viewportHeight scrollOffset overscan : Nat) :
    List (Nat × Nat × Nat) :=
  ((List.range itemCount).filter (fun i =>
      decide (scrollOffset ≤ (i + 1 + overscan) * itemSize) &&
      decide ((if i ≤ overscan then 0 else (i - overscan) * itemSize) ≤
        scrollOffset + viewportHeight))).map
    (fun i => (i, i * itemSize, itemSize))

/-! ## Multi-select controller (`AutocompeteMultiple`) -/

/-- The internal state of `AutocompeteMultiple` touched by the selection
operations: `selectedOptions`, `searchValue`, `loading`. -/
structure MultiState (α : Type) where
  selectedOptions : List α
  searchValue : String
  loading : Bool
deriving DecidableEq, Repr

/-- The outcome of a multi-select operation: the next state together with
the payload `onChange` was fired with (`none` = `onChange` not fired). -/
structure MultiResult (α : Type) where
  state : MultiState α
  onChangePayload : Option (List α)
deriving DecidableEq, Repr

/-- `handleSelectOptions` (the `select` operation):
`if (maxSelected && currentValue.length > maxSelected) return;` then
`setSelectedOptions(currentValue); setSearchValue(''); onChange?.(currentValue)`.
`maxSelected` is a JavaScript number or absent; the guard tests its
truthiness, so a configured `0` is falsy and disables the guard. -/
def handleSelectOptions (maxSelected : Option Int) (st : MultiState α)
    (currentValue : List α) : MultiResult α :=
  match maxSelected with
  | some m =>
    if m ≠ 0 ∧ (currentValue.length : Int) > m then
      ⟨st, none⟩
    else
      ⟨{ st with selectedOptions := currentValue, searchValue := "" }, some currentValue⟩
  | none =>
    ⟨{ st with selectedOptions := currentValue, searchValue := "" }, some currentValue⟩

/-- `handleSelectOption` of the inner `VirtualizedCommand` (the `toggle`
operation): computes membership of the activated option among
`selectedOptions` by `getOptionValue` equality, removes every matching entry
or appends the option, and hands the result to `onSelectOptions`, which the
parent wires to `handleSelectOptions`.  A `disabled` component returns
without calling it. -/
def handleSelectOption (gv : α → OptionValue) (maxSelected : Option Int)
    (disabled : Bool) (st : MultiState α) (option : α) : MultiResult α :=
  if disabled then ⟨st, none⟩
  else
    let isSelected := st.selectedOptions.any (fun item => decide (gv item = gv option))
    let newSelected :=
      if isSelected then
        st.selectedOptions.filter (fun item => decide (gv item ≠ gv option))
      else
        st.selectedOptions ++ [option]
    handleSelectOptions maxSelected st newSelected

/-- `handleClearOption` (the `clearOne` operation): filters out every
selected entry whose `getOptionValue` matches, then fires `onChange` with
the filtered list.  The search text and loading flag are untouched. -/
def handleClearOption (gv : α → OptionValue) (st : MultiState α) (option : α) :
    MultiResult α :=
  let newSelected := st.selectedOptions.filter (fun item => decide (gv item ≠ gv option))
  ⟨{ st with selectedOptions := newSelected }, some newSelected⟩

/-- `handleClearAll` (the `clearAll` operation): empties the selection and
fires `onChange` with `[]`. -/
def handleClearAll (st : MultiState α) : MultiResult α :=
  ⟨{ st with selectedOptions := [] }, some []⟩

/-- The multi-select value-sync effect:
`useEffect(() => { if (value) setSelectedOptions(value) }, [value])`.
A defined array (even the empty one) is truthy and overwrites the internal
selection; an absent (`undefined`) value leaves the state untouched. -/
def multiValueSync (st : MultiState α) (value : Option (List α)) : MultiState α :=
  match value with
  | some v => { st with selectedOptions := v }
  | none => st

/-! ## Debounced external search and the loading flag

`debouncedSearch = useDebouncyFn((searchValue) => { setLoading(true);
onSearch?.(searchValue); setLoading(false); }, delay)`.

The handler body is synchronous: it sets `loading`, invokes the external
`onSearch` callback (which may start asynchronous work), and clears
`loading` in the same event-loop turn.  Nothing in the component observes
the eventual resolution of an asynchronous `onSearch`.  The model records
each primitive step as an event over a state that carries the `loading`
flag plus a ghost list of dispatched-but-unresolved external searches. -/

/-- Primitive events of the search/loading life cycle.  `resolve` is the
eventual completion of an asynchronous `onSearch` invocation; the component
attaches no continuation to it. -/
inductive SearchEvent where
  | setLoading : Bool → SearchEvent
  | invoke : String → SearchEvent
  | resolve : String → SearchEvent
deriving DecidableEq, Repr

/-- `loading` plus the ghost list of external searches that were dispatched
and whose asynchronous work has not resolved yet. -/
structure SearchState where
  loading : Bool
  pending : List String
deriving DecidableEq, Repr

/-- One event step.  `setLoading` is the React state setter; `invoke`
starts the external search (adding it to the ghost pending list); `resolve`
removes it from the pending list and — faithfully to the source, which
registers no completion handler — leaves `loading` untouched. -/
def searchStep (st : SearchState) : SearchEvent → SearchState
  | .setLoading b => { st with loading := b }
  | .invoke s => { st with pending := st.pending ++ [s] }
  | .resolve s => { st with pending := st.pending.erase s }

/-- The synchronous body of the debounced search handler, as the sequence
of events it performs. -/
def debouncedSearchBody (s : String) : List SearchEvent :=
  [.setLoading true, .invoke s, .setLoading false]

/-- Run a sequence of events from a state. -/
def searchRun (st : SearchState) (evs : List SearchEvent) : SearchState :=
  evs.foldl searchStep st

/-! ## Single-select controller (`Autocomplete`) -/

/-- The internal state of `Autocomplete`: `open`, `selectedOption`,
`initialSearch`. -/
structure SingleState where
  openState : Bool
  selectedOption : Option OptionT
  initialSearch : String
deriving DecidableEq, Repr

/-- The outcome of a single-select operation: the next state and the
payload `onChange` was fired with (outer `none` = not fired; inner `none` =
fired with `null`). -/
structure SingleResult where
  state : SingleState
  onChangePayload : Option (Option OptionT)
deriving DecidableEq, Repr

/-- `handleSelectOption` of the single-select `Autocomplete` (option
activation), with the default extractors:
`newValue = selectedOption && getOptionValue(selectedOption) === getOptionValue(currentValue) ? null : currentValue`,
then `setSelectedOption(newValue); setInitialSearch(newValue ? getOptionLabel(newValue) : ''); setOpen(false); onChange?.(newValue)`.
The `selectedOption &&` and `newValue ?` tests are JavaScript truthiness,
so a selected bare empty string is treated as unselected by both. -/
def singleHandleSelectOption (st : SingleState) (currentValue : OptionT) : SingleResult :=
  let newValue : Option OptionT :=
    match st.selectedOption with
    | some sel =>
      if truthyOption sel ∧ getOptionValueDefault sel = getOptionValueDefault currentValue
      then none
      else some currentValue
    | none => some currentValue
  { state :=
      { openState := false
        selectedOption := newValue
        initialSearch :=
          match newValue with
          | some v => if truthyOption v then getOptionLabelDefault v else ""
          | none => "" }
    onChangePayload := some newValue }

/-- The single-select value-sync effect:
`useEffect(() => { setSelectedOption(value || null) }, [value])` — it runs
unconditionally on every value change, coercing a falsy value (absent,
`null`, or the bare empty string) to `null`. -/
def singleValueSync (st : SingleState) (value : Option OptionT) : SingleState :=
  { st with
    selectedOption :=
      match value with
      | some v => if truthyOption v then some v else none
      | none => none }

/-! ## Theorems -/

/-- C10: when `maxSelected` is configured as `0`, the guard
`if (maxSelected && currentValue.length > maxSelected)` is skipped because
`0` is falsy, so `select` replaces the selection, clears the search text and
fires `onChange` for a list of any length. -/
theorem select_ignores_zero_max_c10 {α : Type} (st : MultiState α) (opts : List α) :
    handleSelectOptions (some 0) st opts =
      ⟨{ st with selectedOptions := opts, searchValue := "" }, some opts⟩ := by
  simp [handleSelectOptions]

/-- C1 counterexample: with `maxSelected` configured as `0` and an options
list of length `1 > 0`, the call is not a no-op — the selection is replaced
and `onChange` fires — because the guard tests the truthiness of
`maxSelected` and `0` is falsy. -/
theorem select_noop_guard_c1_cex :
    (1 : Int) > 0 ∧
      (handleSelectOptions (some 0) ⟨[], "q", false⟩ [OptionT.str "a"]).state.selectedOptions
        = [OptionT.str "a"] ∧
      (handleSelectOptions (some 0) ⟨[], "q", false⟩ [OptionT.str "a"]).onChangePayload
        = some [OptionT.str "a"] := by
  refine ⟨by decide, ?_, ?_⟩ <;> decide

/-- C1 (amended): `select(options)` is a no-op — state unchanged, `onChange`
not fired — whenever `maxSelected` is configured to a truthy (nonzero)
value and `options.length > maxSelected`; otherwise (no `maxSelected`,
`maxSelected = 0`, or `options.length ≤ maxSelected`) the selection is
replaced by `options`, the search text is cleared, and `onChange` fires
with the new full selection. -/
theorem select_noop_guard_c1 {α : Type} (m : Int) (st : MultiState α) (opts : List α) :
    (m ≠ 0 → (opts.length : Int) > m → handleSelectOptions (some m) st opts = ⟨st, none⟩) ∧
    (m = 0 ∨ (opts.length : Int) ≤ m →
      handleSelectOptions (some m) st opts =
        ⟨{ st with selectedOptions := opts, searchValue := "" }, some opts⟩) ∧
    (handleSelectOptions none st opts =
      ⟨{ st with selectedOptions := opts, searchValue := "" }, some opts⟩) := by
  refine ⟨fun hm hlen => ?_, fun h => ?_, rfl⟩
  · simp [handleSelectOptions, hm, hlen]
  · rcases h with h | h <;> simp [handleSelectOptions, h]

/-- C1 witness: concrete instances of both guard branches at
`maxSelected = 2`: a three-element list is rejected unchanged, a
two-element list is accepted. -/
theorem select_noop_guard_c1_witness :
    ((2 : Int) ≠ 0) ∧
    handleSelectOptions (some 2) (⟨[], "q", false⟩ : MultiState OptionT)
        [OptionT.str "a", OptionT.str "b", OptionT.str "c"]
      = ⟨⟨[], "q", false⟩, none⟩ ∧
    handleSelectOptions (some 2) (⟨[], "q", false⟩ : MultiState OptionT)
        [OptionT.str "a", OptionT.str "b"]
      = ⟨⟨[OptionT.str "a", OptionT.str "b"], "", false⟩,
          some [OptionT.str "a", OptionT.str "b"]⟩ :=
  ⟨by decide,
    (select_noop_guard_c1 2 ⟨[], "q", false⟩
      [OptionT.str "a", OptionT.str "b", OptionT.str "c"]).1 (by decide) (by decide),
    by
      have h := (select_noop_guard_c1 2 (⟨[], "q", false⟩ : MultiState OptionT)
        [OptionT.str "a", OptionT.str "b"]).2.1 (Or.inr (by decide))
      simpa using h⟩

/-- C4 counterexample: the multi-select value-sync effect runs
`if (value) setSelectedOptions(value)`, so when the external `value` prop
becomes absent (`undefined`) the internal selection is retained rather than
overwritten to match — here a one-element internal selection survives an
absent external value. -/
theorem value_sync_c4_cex :
    (multiValueSync (⟨[OptionT.str "a"], "", false⟩ : MultiState OptionT)
        (none : Option (List OptionT))).selectedOptions = [OptionT.str "a"] ∧
      [OptionT.str "a"] ≠ ([] : List OptionT) := by
  refine ⟨rfl, by decide⟩

/-- C4 (amended): every defined external `value` (including the empty list)
overwrites the multi-select internal selection on the next render, but an
absent (`undefined`) `value` leaves the multi-select state untouched; the
single-select effect runs unconditionally, overwriting the internal
selection with the new value for truthy values and with no-selection for
absent/falsy ones (including the bare empty-string option). -/
theorem value_sync_c4 {α : Type} :
    (∀ (st : MultiState α) (v : List α),
      multiValueSync st (some v) = { st with selectedOptions := v }) ∧
    (∀ st : MultiState α, multiValueSync st none = st) ∧
    (∀ (st : SingleState) (x : OptionT), truthyOption x = true →
      (singleValueSync st (some x)).selectedOption = some x) ∧
    (∀ st : SingleState, (singleValueSync st none).selectedOption = none) ∧
    (∀ st : SingleState,
      (singleValueSync st (some (OptionT.str ""))).selectedOption = none) := by
  refine ⟨fun st v => rfl, fun st => rfl, fun st x hx => ?_, fun st => rfl, fun st => ?_⟩
  · simp [singleValueSync, hx]
  · simp [singleValueSync, truthyOption]

/-- C4 witness: the amended sync behaviour at concrete states — a defined
empty list overwrites the multi-select selection, and a truthy option
overwrites the single-select selection. -/
theorem value_sync_c4_witness :
    multiValueSync (⟨[OptionT.str "a"], "s", true⟩ : MultiState OptionT) (some [])
        = ⟨[], "s", true⟩ ∧
      truthyOption (OptionT.str "a") = true ∧
      (singleValueSync ⟨false, none, ""⟩ (some (OptionT.str "a"))).selectedOption
        = some (OptionT.str "a") :=
  ⟨by
      have h := (value_sync_c4 (α := OptionT)).1 ⟨[OptionT.str "a"], "s", true⟩ []
      simpa using h,
    by decide,
    (value_sync_c4 (α := OptionT)).2.2.1 ⟨false, none, ""⟩ (OptionT.str "a") (by decide)⟩

/-- C5 counterexample: the debounced search handler sets `loading` to
`true`, invokes `onSearch`, and sets `loading` back to `false` all in the
same synchronous turn, with no generation counter; after dispatching two
searches whose asynchronous work has not resolved, `loading` is already
`false` even though the newer search is still pending — contradicting the
claim that `loading` stays `true` until the latest dispatched search
completes. -/
theorem loading_flag_c5_cex :
    (searchRun ⟨false, []⟩ (debouncedSearchBody "a" ++ debouncedSearchBody "b")).pending
        = ["a", "b"] ∧
      (searchRun ⟨false, []⟩ (debouncedSearchBody "a" ++ debouncedSearchBody "b")).loading
        = false := by
  refine ⟨rfl, rfl⟩

/-- C5 (amended): `loading` brackets only the synchronous portion of each
debounced dispatch — it is `true` exactly between the `setLoading(true)`
and `setLoading(false)` of that dispatch, and is `false` once the dispatch
returns, regardless of unresolved asynchronous searches; the completion of
an asynchronous `onSearch` never updates `loading`, because the component
registers no completion handler and tracks no generation counter. -/
theorem loading_flag_c5 (st : SearchState) (s : String) :
    (searchRun st (debouncedSearchBody s)).loading = false ∧
    (searchRun st (debouncedSearchBody s)).pending = st.pending ++ [s] ∧
    (searchRun st ((debouncedSearchBody s).take 2)).loading = true ∧
    (∀ s2, (searchStep st (SearchEvent.resolve s2)).loading = st.loading) := by
  refine ⟨rfl, rfl, rfl, fun s2 => rfl⟩

/-- C7: `clearOne(x)` removes exactly the selected entries whose identity
key matches `x`'s, leaves the search text untouched, and when no selected
option matches it leaves the whole state unchanged (a silent no-op — being
a total function, it cannot throw). -/
theorem clear_one_c7 {α : Type} (gv : α → OptionValue) (st : MultiState α) (x : α) :
    (handleClearOption gv st x).state.selectedOptions
        = st.selectedOptions.filter (fun y => decide (gv y ≠ gv x)) ∧
    (handleClearOption gv st x).state.searchValue = st.searchValue ∧
    (handleClearOption gv st x).state.loading = st.loading ∧
    ((∀ y ∈ st.selectedOptions, gv y ≠ gv x) → (handleClearOption gv st x).state = st) := by
  refine ⟨rfl, rfl, rfl, fun h => ?_⟩
  have hfil : st.selectedOptions.filter (fun y => !decide (gv y = gv x))
      = st.selectedOptions := by
    rw [List.filter_eq_self]
    intro y hy
    simpa using h y hy
  simp [handleClearOption, hfil]

/-- C7 witness: clearing the absent key `"z"` from the selection
`[a, b]` leaves the state exactly as it was. -/
theorem clear_one_c7_witness :
    (∀ y ∈ [OptionT.str "a", OptionT.str "b"],
      getOptionValueDefault y ≠ getOptionValueDefault (OptionT.str "z")) ∧
    (handleClearOption getOptionValueDefault
        (⟨[OptionT.str "a", OptionT.str "b"], "s", false⟩ : MultiState OptionT)
        (OptionT.str "z")).state
      = ⟨[OptionT.str "a", OptionT.str "b"], "s", false⟩ :=
  ⟨by decide,
    (clear_one_c7 getOptionValueDefault
      (⟨[OptionT.str "a", OptionT.str "b"], "s", false⟩ : MultiState OptionT)
      (OptionT.str "z")).2.2.2 (by decide)⟩

/-- JavaScript `includes` with an empty pattern holds of every string. -/
theorem strIncludes_empty (hay : String) : strIncludes hay "" = true := by
  unfold strIncludes
  rw [List.any_eq_true]
  exact ⟨0, by simp, by simp⟩

/-- C8: with the default filter, the filter stage yields a sublist of the
option list (a subset in the original relative order) for every search
term, and the empty search term returns the whole list; the filter is a
pure total Lean function, hence deterministic and non-throwing. -/
theorem default_filter_c8 {α : Type} (gl : α → String) (L : List α) (s : String) :
    List.Sublist (filteredOptions (filterOptionDefault gl) L s) L ∧
    filteredOptions (filterOptionDefault gl) L "" = L := by
  constructor
  · exact List.filter_sublist L
  · rw [filteredOptions, List.filter_eq_self]
    intro o _
    have hlow : strToLower "" = "" := rfl
    rw [filterOptionDefault, hlow]
    exact strIncludes_empty (strToLower (gl o))

/-- C9: the rendered container height `min(configuredHeight, itemCount*35)`
never exceeds the content extent `itemCount*35` nor the configured height,
equals whichever of the two is smaller, is `0` for an empty item set
(for any nonnegative configured height), and the modelled virtualization
window mounts no items when `itemCount = 0`. -/
theorem list_height_c9 (h : Int) (n : Nat) :
    listHeight h n ≤ (n : Int) * 35 ∧
    listHeight h n ≤ h ∧
    (h ≤ (n : Int) * 35 → listHeight h n = h) ∧
    ((n : Int) * 35 ≤ h → listHeight h n = (n : Int) * 35) ∧
    (0 ≤ h → listHeight h 0 = 0) ∧
    (∀ sz vp so ov, visibleWindow 0 sz vp so ov = []) := by
  refine ⟨min_le_right h _, min_le_left h _, fun hle => min_eq_left hle,
    fun hle => min_eq_right hle, fun h0 => ?_, fun sz vp so ov => rfl⟩
  simp [listHeight, h0]

/-- C9 witness: the configured height `300` with `8` items of size `35`
gives container height `280 = 8 * 35`, with `0` items gives height `0`, and
the empty item set mounts nothing. -/
theorem list_height_c9_witness :
    listHeight 300 8 = 280 ∧ listHeight 300 0 = 0 ∧ visibleWindow 0 35 300 0 5 = [] :=
  ⟨by
      have h := (list_height_c9 300 8).2.2.2.1 (by decide)
      simpa using h,
    (list_height_c9 300 0).2.2.2.2.1 (by decide),
    (list_height_c9 300 0).2.2.2.2.2 35 300 0 5⟩

/-- The selection produced by `handleSelectOptions` is either the old
selection (guard rejected) or the proposed list (guard passed). -/
theorem handleSelectOptions_sel_cases {α : Type} (m : Option Int) (st : MultiState α)
    (v : List α) :
    (handleSelectOptions m st v).state.selectedOptions = st.selectedOptions ∨
    (handleSelectOptions m st v).state.selectedOptions = v := by
  cases m with
  | none => exact Or.inr rfl
  | some mm =>
    by_cases hg : mm ≠ 0 ∧ (v.length : Int) > mm
    · exact Or.inl (by simp [handleSelectOptions, hg])
    · exact Or.inr (by simp only [handleSelectOptions, if_neg hg])

/-- Filtering a selection preserves distinctness of its identity keys. -/
theorem keyNodup_filter {α : Type} (gv : α → OptionValue) (S : List α) (p : α → Bool)
    (h : (S.map gv).Nodup) : ((S.filter p).map gv).Nodup :=
  h.sublist (List.Sublist.map gv (List.filter_sublist S))

/-- Appending an option whose key is fresh preserves distinctness of the
identity keys. -/
theorem keyNodup_append {α : Type} (gv : α → OptionValue) (S : List α) (x : α)
    (h : (S.map gv).Nodup) (hx : gv x ∉ S.map gv) : ((S ++ [x]).map gv).Nodup := by
  rw [List.map_append]
  rw [List.nodup_append]
  refine ⟨h, List.nodup_singleton _, ?_⟩
  intro k hk hk1
  simp only [List.map_cons, List.map_nil, List.mem_singleton] at hk1
  exact hx (hk1 ▸ hk)

/-- C2 counterexample: the `select` operation (`handleSelectOptions`) does
not deduplicate its input — selecting the list `[a, a]` produces a
selection in which the same identity key appears twice, violating the
uniqueness invariant after a public operation. -/
theorem selection_key_nodup_c2_cex :
    (handleSelectOptions none (⟨[], "", false⟩ : MultiState OptionT)
        [OptionT.str "a", OptionT.str "a"]).state.selectedOptions
      = [OptionT.str "a", OptionT.str "a"] ∧
    ¬ (([OptionT.str "a", OptionT.str "a"].map getOptionValueDefault).Nodup) := by
  refine ⟨rfl, by decide⟩

/-- C2 (amended): distinctness of the selection's identity keys is
preserved by `toggle` (which deduplicates by value equality, appending a
newly added option at the end), by `clearOne`, and by `clearAll`; `select`
replaces the selection verbatim without deduplicating, so it preserves the
invariant only when its input list itself has no duplicate keys. -/
theorem selection_key_nodup_c2 {α : Type} (gv : α → OptionValue) (m : Option Int)
    (d : Bool) (st : MultiState α) (x : α) (v : List α) :
    ((st.selectedOptions.map gv).Nodup →
      (((handleSelectOption gv m d st x).state.selectedOptions).map gv).Nodup) ∧
    ((st.selectedOptions.map gv).Nodup →
      (((handleClearOption gv st x).state.selectedOptions).map gv).Nodup) ∧
    (((handleClearAll st).state.selectedOptions).map gv).Nodup ∧
    ((st.selectedOptions.map gv).Nodup → (v.map gv).Nodup →
      (((handleSelectOptions m st v).state.selectedOptions).map gv).Nodup) ∧
    (gv x ∉ st.selectedOptions.map gv →
      (handleSelectOption gv none false st x).state.selectedOptions
        = st.selectedOptions ++ [x]) := by
  have hsel : ∀ (mS : Option Int) (w : List α), (st.selectedOptions.map gv).Nodup →
      (w.map gv).Nodup → (((handleSelectOptions mS st w).state.selectedOptions).map gv).Nodup := by
    intro mS w h1 h2
    rcases handleSelectOptions_sel_cases mS st w with hc | hc <;> rw [hc]
    · exact h1
    · exact h2
  have hany : ∀ S : List α,
      (S.any fun item => decide (gv item = gv x)) = false ↔ gv x ∉ S.map gv := by
    intro S
    rw [List.any_eq_false]
    constructor
    · intro h hmem
      rcases List.mem_map.mp hmem with ⟨y, hy, hky⟩
      exact h y hy (by simpa using hky)
    · intro h y hy hk
      exact h (List.mem_map.mpr ⟨y, hy, by simpa using hk⟩)
  refine ⟨fun h => ?_, fun h => keyNodup_filter gv _ _ h, by simp [handleClearAll],
    fun h hv => hsel m v h hv, fun hx => ?_⟩
  · by_cases hd : d
    · simpa [handleSelectOption, hd] using h
    · rw [handleSelectOption, if_neg hd]
      by_cases hs : (st.selectedOptions.any fun item => decide (gv item = gv x)) = true
      · simp only [hs, if_true]
        exact hsel m _ h (keyNodup_filter gv _ _ h)
      · have hx : gv x ∉ st.selectedOptions.map gv := (hany _).mp (by simpa using hs)
        simp only [eq_false_of_ne_true hs, if_false]
        exact hsel m _ h (keyNodup_append gv _ _ h hx)
  · rw [handleSelectOption, if_neg (by simp)]
    rw [(hany st.selectedOptions).mpr hx]
    rfl

/-- C2 witness: from the key-distinct selection `[a]`, toggling the
fresh option `b` appends it and keeps the keys distinct. -/
theorem selection_key_nodup_c2_witness :
    (([OptionT.str "a"].map getOptionValueDefault).Nodup) ∧
    ((((handleSelectOption getOptionValueDefault none false
          (⟨[OptionT.str "a"], "", false⟩ : MultiState OptionT)
          (OptionT.str "b")).state.selectedOptions).map getOptionValueDefault).Nodup) ∧
    (handleSelectOption getOptionValueDefault none false
        (⟨[OptionT.str "a"], "", false⟩ : MultiState OptionT)
        (OptionT.str "b")).state.selectedOptions
      = [OptionT.str "a", OptionT.str "b"] :=
  ⟨by decide,
    (selection_key_nodup_c2 getOptionValueDefault none false
      (⟨[OptionT.str "a"], "", false⟩ : MultiState OptionT)
      (OptionT.str "b") []).1 (by decide),
    by
      have h := (selection_key_nodup_c2 getOptionValueDefault none false
        (⟨[OptionT.str "a"], "", false⟩ : MultiState OptionT)
        (OptionT.str "b") []).2.2.2.2 (by decide)
      simpa using h⟩

/-- The membership test of `toggle` succeeds exactly when the activated
option's key occurs among the selection's keys. -/
theorem any_key_eq_true_iff {α : Type} (gv : α → OptionValue) (x : α) (S : List α) :
    (S.any fun item => decide (gv item = gv x)) = true ↔ gv x ∈ S.map gv := by
  rw [List.any_eq_true]
  constructor
  · rintro ⟨y, hy, hk⟩
    exact List.mem_map.mpr ⟨y, hy, by simpa using hk⟩
  · intro h
    rcases List.mem_map.mp h with ⟨y, hy, hk⟩
    exact ⟨y, hy, by simpa using hk⟩

/-- Removing a key that does not occur leaves the selection unchanged. -/
theorem filter_key_ne_of_not_mem {α : Type} (gv : α → OptionValue) (x : α) (S : List α)
    (hx : gv x ∉ S.map gv) :
    S.filter (fun item => decide (gv item ≠ gv x)) = S := by
  rw [List.filter_eq_self]
  intro y hy
  simp only [ne_eq, decide_not, Bool.not_eq_eq_eq_not, Bool.not_true, decide_eq_false_iff_not]
  intro hk
  exact hx (List.mem_map.mpr ⟨y, hy, hk⟩)

/-- The keys surviving the removal filter are exactly the old keys other
than the removed one. -/
theorem mem_map_filter_key {α : Type} (gv : α → OptionValue) (x : α) (S : List α)
    (j : OptionValue) :
    (j ∈ (S.filter (fun item => decide (gv item ≠ gv x))).map gv) ↔
      j ∈ S.map gv ∧ j ≠ gv x := by
  constructor
  · intro h
    rcases List.mem_map.mp h with ⟨y, hy, hk⟩
    rcases List.mem_filter.mp hy with ⟨hyS, hyne⟩
    refine ⟨List.mem_map.mpr ⟨y, hyS, hk⟩, ?_⟩
    simpa [hk] using hyne
  · rintro ⟨hj, hne⟩
    rcases List.mem_map.mp hj with ⟨y, hy, hk⟩
    exact List.mem_map.mpr
      ⟨y, List.mem_filter.mpr ⟨hy, by simpa [hk] using hne⟩, hk⟩

/-- Filtering out an element that is present strictly shrinks the list. -/
theorem length_filter_lt_of_mem {α : Type} (p : α → Bool) (l : List α) (y : α)
    (hy : y ∈ l) (hpy : p y = false) : (l.filter p).length < l.length := by
  induction l with
  | nil => cases hy
  | cons a as ih =>
    rcases List.mem_cons.mp hy with h | h
    · subst h
      rw [List.filter_cons_of_neg (by simp [hpy])]
      exact Nat.lt_succ_of_le (List.length_filter_le p as)
    · by_cases hpa : p a = true
      · rw [List.filter_cons_of_pos hpa]
        simpa using Nat.succ_lt_succ (ih h)
      · rw [List.filter_cons_of_neg (by simpa using hpa)]
        exact Nat.lt_succ_of_lt (ih h)

/-- `handleSelectOptions` succeeds (guard passes) whenever the configured
maximum is absent, zero (falsy), or at least the proposed length. -/
theorem handleSelectOptions_success {α : Type} (m : Option Int) (st : MultiState α)
    (v : List α) (h : ∀ mm, m = some mm → mm = 0 ∨ (v.length : Int) ≤ mm) :
    handleSelectOptions m st v =
      ⟨{ st with selectedOptions := v, searchValue := "" }, some v⟩ := by
  cases m with
  | none => rfl
  | some mm =>
    have hg : ¬ (mm ≠ 0 ∧ (v.length : Int) > mm) := by
      rcases h mm rfl with h0 | hle
      · exact fun hc => hc.1 h0
      · exact fun hc => absurd hc.2 (not_lt.mpr hle)
    simp only [handleSelectOptions, if_neg hg]

/-- `handleSelectOptions` rejects (full no-op) when the configured maximum
is truthy and exceeded. -/
theorem handleSelectOptions_reject {α : Type} (mm : Int) (st : MultiState α)
    (v : List α) (h1 : mm ≠ 0) (h2 : (v.length : Int) > mm) :
    handleSelectOptions (some mm) st v = ⟨st, none⟩ := by
  simp only [handleSelectOptions, if_pos (And.intro h1 h2)]

/-- C3 counterexample: toggling `a` twice on the selection `[a, b]`
(no `maxSelected`, not disabled) yields `[b, a]`, not the original `[a, b]`
— the re-added option moves to the end, so at this input the original
sequence is not restored even under identity-key comparison of the
lists. -/
theorem toggle_twice_c3_cex :
    (handleSelectOption getOptionValueDefault none false
        (handleSelectOption getOptionValueDefault none false
          (⟨[OptionT.str "a", OptionT.str "b"], "", false⟩ : MultiState OptionT)
          (OptionT.str "a")).state
        (OptionT.str "a")).state.selectedOptions
      = [OptionT.str "b", OptionT.str "a"] ∧
    ([OptionT.str "b", OptionT.str "a"].map getOptionValueDefault
      ≠ [OptionT.str "a", OptionT.str "b"].map getOptionValueDefault) := by
  refine ⟨by decide, by decide⟩

/-- C3 (amended): `toggle(x)` equals computing membership of `x` by
identity key and calling `select` with `x` removed (if a member) or
appended (if not).  Applying it twice restores the original selection as a
sequence whenever `x` was not selected.  When `x` was selected (and the
current selection does not already exceed a truthy `maxSelected`), the
result is the original selection with every `x`-keyed entry removed and
`x` appended at the end: the set of identity keys is preserved, and the
sequence itself is restored in the cases where that filter-and-append is
the identity — e.g. toggling the most-recently-added entry, as in `[a]`
toggle `a` twice, or `[a, b]` toggle `b` twice — while in general the
order may change, as the counterexample shows. -/
theorem toggle_twice_c3 {α : Type} (gv : α → OptionValue) (m : Option Int) (d : Bool)
    (st : MultiState α) (x : α)
    (hguard : ∀ mm, m = some mm → mm = 0 ∨ (st.selectedOptions.length : Int) ≤ mm) :
    (handleSelectOption gv m d st x =
      if d then ⟨st, none⟩
      else handleSelectOptions m st
        (if st.selectedOptions.any (fun item => decide (gv item = gv x)) then
          st.selectedOptions.filter (fun item => decide (gv item ≠ gv x))
        else st.selectedOptions ++ [x])) ∧
    (gv x ∉ st.selectedOptions.map gv →
      (handleSelectOption gv m d
          (handleSelectOption gv m d st x).state x).state.selectedOptions
        = st.selectedOptions) ∧
    (∀ k, k ∈ ((handleSelectOption gv m d
          (handleSelectOption gv m d st x).state x).state.selectedOptions).map gv
        ↔ k ∈ st.selectedOptions.map gv) ∧
    (d = false → gv x ∈ st.selectedOptions.map gv →
      (handleSelectOption gv m d
          (handleSelectOption gv m d st x).state x).state.selectedOptions
        = (st.selectedOptions.filter fun item => decide (gv item ≠ gv x)) ++ [x]) := by
  have hdef : ∀ st' : MultiState α, handleSelectOption gv m false st' x =
      if (st'.selectedOptions.any fun item => decide (gv item = gv x)) = true then
        handleSelectOptions m st'
          (st'.selectedOptions.filter fun item => decide (gv item ≠ gv x))
      else handleSelectOptions m st' (st'.selectedOptions ++ [x]) := by
    intro st'
    rw [handleSelectOption, if_neg (by simp)]
    cases hval : (st'.selectedOptions.any fun item => decide (gv item = gv x)) <;>
      simp [hval]
  cases d with
  | true => exact ⟨rfl, fun _ => rfl, fun k => Iff.rfl, fun hd => nomatch hd⟩
  | false =>
    refine ⟨rfl, ?_⟩
    by_cases hmem : gv x ∈ st.selectedOptions.map gv
    · -- first toggle removes all `x`-keyed entries, second re-appends `x`
      have hany1 : (st.selectedOptions.any fun item => decide (gv item = gv x)) = true :=
        (any_key_eq_true_iff gv x st.selectedOptions).mpr hmem
      have hlt : (st.selectedOptions.filter fun item => decide (gv item ≠ gv x)).length
          < st.selectedOptions.length := by
        rcases List.mem_map.mp hmem with ⟨y, hy, hk⟩
        exact length_filter_lt_of_mem _ _ y hy (by simp [hk])
      have hsucc1 : handleSelectOptions m st
            (st.selectedOptions.filter fun item => decide (gv item ≠ gv x))
          = ⟨{ st with
               selectedOptions :=
                 st.selectedOptions.filter fun item => decide (gv item ≠ gv x),
               searchValue := "" },
             some (st.selectedOptions.filter fun item => decide (gv item ≠ gv x))⟩ := by
        refine handleSelectOptions_success m st _ (fun mm hmm => ?_)
        rcases hguard mm hmm with h0 | hle
        · exact Or.inl h0
        · exact Or.inr (le_trans (by exact_mod_cast List.length_filter_le _ _) hle)
      have hst1 : (handleSelectOption gv m false st x).state
          = { st with
              selectedOptions :=
                st.selectedOptions.filter fun item => decide (gv item ≠ gv x),
              searchValue := "" } := by
        rw [hdef st, if_pos hany1, hsucc1]
      have hproj : ({ st with
            selectedOptions :=
              st.selectedOptions.filter fun item => decide (gv item ≠ gv x),
            searchValue := "" } : MultiState α).selectedOptions
          = st.selectedOptions.filter fun item => decide (gv item ≠ gv x) := rfl
      have hnot2 : gv x ∉ (st.selectedOptions.filter fun item =>
          decide (gv item ≠ gv x)).map gv :=
        fun hc => ((mem_map_filter_key gv x _ (gv x)).mp hc).2 rfl
      have hany2 : ((st.selectedOptions.filter fun item => decide (gv item ≠ gv x)).any
          fun item => decide (gv item = gv x)) ≠ true :=
        fun hc => hnot2 ((any_key_eq_true_iff gv x _).mp hc)
      have hsucc2 : handleSelectOptions m
            { st with
              selectedOptions :=
                st.selectedOptions.filter fun item => decide (gv item ≠ gv x),
              searchValue := "" }
            ((st.selectedOptions.filter fun item => decide (gv item ≠ gv x)) ++ [x])
          = ⟨{ st with
               selectedOptions :=
                 (st.selectedOptions.filter fun item => decide (gv item ≠ gv x)) ++ [x],
               searchValue := "" },
             some ((st.selectedOptions.filter fun item =>
               decide (gv item ≠ gv x)) ++ [x])⟩ := by
        refine handleSelectOptions_success m _ _ (fun mm hmm => ?_)
        rcases hguard mm hmm with h0 | hle
        · exact Or.inl h0
        · refine Or.inr (le_trans ?_ hle)
          have h1 : ((st.selectedOptions.filter fun item =>
              decide (gv item ≠ gv x)).length + 1 : Int)
              ≤ (st.selectedOptions.length : Int) := by exact_mod_cast hlt
          simpa using h1
      have hst2 : (handleSelectOption gv m false
            (handleSelectOption gv m false st x).state x).state.selectedOptions
          = (st.selectedOptions.filter fun item => decide (gv item ≠ gv x)) ++ [x] := by
        rw [hst1, hdef, hproj, if_neg hany2, hsucc2]
      refine ⟨fun hx => absurd hmem hx, fun k => ?_, fun _ _ => hst2⟩
      rw [hst2, List.map_append, List.mem_append, mem_map_filter_key]
      simp only [List.map_cons, List.map_nil, List.mem_singleton]
      constructor
      · rintro (⟨hj, _⟩ | hj)
        · exact hj
        · exact hj ▸ hmem
      · intro hj
        by_cases hjk : k = gv x
        · exact Or.inr hjk
        · exact Or.inl ⟨hj, hjk⟩
    · -- `x` is not selected: the double toggle restores the selection exactly
      have hany1 : (st.selectedOptions.any fun item => decide (gv item = gv x)) ≠ true :=
        fun hc => hmem ((any_key_eq_true_iff gv x _).mp hc)
      by_cases hrej : ∃ mm, m = some mm ∧ mm ≠ 0 ∧
          ((st.selectedOptions ++ [x]).length : Int) > mm
      · -- the append is rejected by the guard: both toggles are full no-ops
        rcases hrej with ⟨mm, hmmeq, hmm0, hmmlen⟩
        have hfirst : handleSelectOption gv m false st x = ⟨st, none⟩ := by
          rw [hdef st, if_neg hany1, hmmeq, handleSelectOptions_reject mm st _ hmm0 hmmlen]
        have hst2 : (handleSelectOption gv m false
              (handleSelectOption gv m false st x).state x).state.selectedOptions
            = st.selectedOptions := by
          rw [hfirst]
          show (handleSelectOption gv m false st x).state.selectedOptions
            = st.selectedOptions
          rw [hfirst]
        exact ⟨fun _ => hst2, fun k => by rw [hst2], fun _ hm => absurd hm hmem⟩
      · -- the append is accepted; the second toggle removes exactly `x`
        have hsucc1 : handleSelectOptions m st (st.selectedOptions ++ [x])
            = ⟨{ st with
                 selectedOptions := st.selectedOptions ++ [x],
                 searchValue := "" },
               some (st.selectedOptions ++ [x])⟩ := by
          refine handleSelectOptions_success m st _ (fun mm hmm => ?_)
          by_cases h0 : mm = 0
          · exact Or.inl h0
          · refine Or.inr (not_lt.mp fun hgt => hrej ⟨mm, hmm, h0, hgt⟩)
        have hst1 : (handleSelectOption gv m false st x).state
            = { st with
                selectedOptions := st.selectedOptions ++ [x],
                searchValue := "" } := by
          rw [hdef st, if_neg hany1, hsucc1]
        have hproj : ({ st with
              selectedOptions := st.selectedOptions ++ [x],
              searchValue := "" } : MultiState α).selectedOptions
            = st.selectedOptions ++ [x] := rfl
        have hany2 : ((st.selectedOptions ++ [x]).any
            fun item => decide (gv item = gv x)) = true :=
          (any_key_eq_true_iff gv x _).mpr
            (by rw [List.map_append]; exact List.mem_append_right _ (by simp))
        have hfil2 : ((st.selectedOptions ++ [x]).filter
            fun item => decide (gv item ≠ gv x)) = st.selectedOptions := by
          rw [List.filter_append, filter_key_ne_of_not_mem gv x _ hmem]
          simp
        have hsucc2 : handleSelectOptions m
              { st with
                selectedOptions := st.selectedOptions ++ [x],
                searchValue := "" }
              st.selectedOptions
            = ⟨{ st with
                 selectedOptions := st.selectedOptions,
                 searchValue := "" },
               some st.selectedOptions⟩ :=
          handleSelectOptions_success m _ _ (fun mm hmm => hguard mm hmm)
        have hst2 : (handleSelectOption gv m false
              (handleSelectOption gv m false st x).state x).state.selectedOptions
            = st.selectedOptions := by
          rw [hst1, hdef, hproj, if_pos hany2, hfil2, hsucc2]
        exact ⟨fun _ => hst2, fun k => by rw [hst2], fun _ hm => absurd hm hmem⟩

/-- C3 witness: with no `maxSelected` (the guard hypothesis holds
vacuously), toggling the unselected `b` twice on `[a]` restores `[a]`,
toggling `a` twice on `[a, b]` preserves the key set, and toggling the
selected last entry `b` twice on `[a, b]` restores `[a, b]` exactly. -/
theorem toggle_twice_c3_witness :
    (getOptionValueDefault (OptionT.str "b")
        ∉ [OptionT.str "a"].map getOptionValueDefault) ∧
    (handleSelectOption getOptionValueDefault none false
        (handleSelectOption getOptionValueDefault none false
          (⟨[OptionT.str "a"], "", false⟩ : MultiState OptionT)
          (OptionT.str "b")).state
        (OptionT.str "b")).state.selectedOptions
      = [OptionT.str "a"] ∧
    ((OptionValue.str "a") ∈ ((handleSelectOption getOptionValueDefault none false
        (handleSelectOption getOptionValueDefault none false
          (⟨[OptionT.str "a", OptionT.str "b"], "", false⟩ : MultiState OptionT)
          (OptionT.str "a")).state
        (OptionT.str "a")).state.selectedOptions).map getOptionValueDefault
      ↔ (OptionValue.str "a")
          ∈ [OptionT.str "a", OptionT.str "b"].map getOptionValueDefault) ∧
    (handleSelectOption getOptionValueDefault none false
        (handleSelectOption getOptionValueDefault none false
          (⟨[OptionT.str "a", OptionT.str "b"], "", false⟩ : MultiState OptionT)
          (OptionT.str "b")).state
        (OptionT.str "b")).state.selectedOptions
      = [OptionT.str "a", OptionT.str "b"] :=
  ⟨by decide,
    (toggle_twice_c3 getOptionValueDefault none false
        (⟨[OptionT.str "a"], "", false⟩ : MultiState OptionT) (OptionT.str "b")
        (fun mm hmm => by cases hmm)).2.1 (by decide),
    (toggle_twice_c3 getOptionValueDefault none false
        (⟨[OptionT.str "a", OptionT.str "b"], "", false⟩ : MultiState OptionT)
        (OptionT.str "a") (fun mm hmm => by cases hmm)).2.2.1 (OptionValue.str "a"),
    by
      have h := (toggle_twice_c3 getOptionValueDefault none false
        (⟨[OptionT.str "a", OptionT.str "b"], "", false⟩ : MultiState OptionT)
        (OptionT.str "b") (fun mm hmm => by cases hmm)).2.2.2 rfl (by decide)
      rw [h]
      decide⟩

/-- A falsy option carries the empty label under the default extractor. -/
theorem label_empty_of_not_truthy (v : OptionT) (h : truthyOption v = false) :
    getOptionLabelDefault v = "" := by
  cases v with
  | str s => simpa [truthyOption, getOptionLabelDefault] using h
  | record r => simp [truthyOption] at h

/-- C6 counterexample: the single-select toggle-off check is
`selectedOption && keys equal`, a truthiness test, so when the currently
selected option is the falsy bare empty string and it is activated again
(equal identity keys), the selection is kept and `onChange` fires with the
option instead of `null` — no toggle-off happens. -/
theorem single_activation_c6_cex :
    getOptionValueDefault (OptionT.str "") = getOptionValueDefault (OptionT.str "") ∧
    (singleHandleSelectOption ⟨true, some (OptionT.str ""), ""⟩
        (OptionT.str "")).state.selectedOption = some (OptionT.str "") ∧
    (singleHandleSelectOption ⟨true, some (OptionT.str ""), ""⟩
        (OptionT.str "")).onChangePayload = some (some (OptionT.str "")) := by
  refine ⟨rfl, by decide, by decide⟩

/-- C6 (amended): provided the current selection, if any, is a truthy
option (any record, or a nonempty bare string), option activation behaves
as specified: equal identity keys clear the selection and fire
`onChange(null)`; different (or no) current selection selects the
activated option and fires `onChange` with it.  In both cases the state
closes and the search text is reset to the new selection's label, or to
empty if there is none.  (For the falsy empty-string option the toggle-off
branch is skipped, as the counterexample shows.) -/
theorem single_activation_c6 (st : SingleState) (x : OptionT)
    (h : ∀ s, st.selectedOption = some s → truthyOption s = true) :
    ((∃ sel, st.selectedOption = some sel ∧
        getOptionValueDefault sel = getOptionValueDefault x) →
      (singleHandleSelectOption st x).state.selectedOption = none ∧
      (singleHandleSelectOption st x).onChangePayload = some none) ∧
    ((∀ sel, st.selectedOption = some sel →
        getOptionValueDefault sel ≠ getOptionValueDefault x) →
      (singleHandleSelectOption st x).state.selectedOption = some x ∧
      (singleHandleSelectOption st x).onChangePayload = some (some x)) ∧
    (singleHandleSelectOption st x).state.openState = false ∧
    ((singleHandleSelectOption st x).state.initialSearch =
      match (singleHandleSelectOption st x).state.selectedOption with
      | some v => getOptionLabelDefault v
      | none => "") := by
  have hsearch : ∀ v : OptionT,
      (if truthyOption v = true then getOptionLabelDefault v else "")
        = getOptionLabelDefault v := by
    intro v
    by_cases hv : truthyOption v = true
    · rw [if_pos hv]
    · rw [if_neg hv, label_empty_of_not_truthy v (by simpa using hv)]
  cases hsel : st.selectedOption with
  | none =>
    refine ⟨?_, fun _ => ?_, ?_, ?_⟩
    · rintro ⟨sel, hs, -⟩
      cases hs
    · constructor <;> simp [singleHandleSelectOption, hsel]
    · rfl
    · simp only [singleHandleSelectOption, hsel]
      exact hsearch x
  | some sel =>
    have htr : truthyOption sel = true := h sel hsel
    by_cases hk : getOptionValueDefault sel = getOptionValueDefault x
    · refine ⟨fun _ => ?_, fun hall => absurd hk (hall sel rfl), rfl, ?_⟩
      · constructor <;> simp [singleHandleSelectOption, hsel, htr, hk]
      · simp [singleHandleSelectOption, hsel, htr, hk]
    · refine ⟨?_, fun _ => ?_, rfl, ?_⟩
      · rintro ⟨sel', hs', hk'⟩
        cases hs'
        exact absurd hk' hk
      · constructor <;> simp [singleHandleSelectOption, hsel, hk]
      · simp only [singleHandleSelectOption, hsel]
        rw [if_neg (fun hc => hk hc.2)]
        exact hsearch x

/-- C6 witness: with a truthy record selected, re-activating it clears the
selection and fires `onChange(null)`, and activating a different-keyed
record selects it. -/
theorem single_activation_c6_witness :
    truthyOption (OptionT.record ⟨OptionValue.num 1, "One"⟩) = true ∧
    (singleHandleSelectOption
        ⟨true, some (OptionT.record ⟨OptionValue.num 1, "One"⟩), "One"⟩
        (OptionT.record ⟨OptionValue.num 1, "One"⟩)).state.selectedOption = none ∧
    (singleHandleSelectOption
        ⟨true, some (OptionT.record ⟨OptionValue.num 1, "One"⟩), "One"⟩
        (OptionT.record ⟨OptionValue.num 1, "One"⟩)).onChangePayload = some none :=
  ⟨by decide,
    ((single_activation_c6
        ⟨true, some (OptionT.record ⟨OptionValue.num 1, "One"⟩), "One"⟩
        (OptionT.record ⟨OptionValue.num 1, "One"⟩)
        (fun s hs => by cases hs; rfl)).1
      ⟨OptionT.record ⟨OptionValue.num 1, "One"⟩, rfl, rfl⟩).1,
    ((single_activation_c6
        ⟨true, some (OptionT.record ⟨OptionValue.num 1, "One"⟩), "One"⟩
        (OptionT.record ⟨OptionValue.num 1, "One"⟩)
        (fun s hs => by cases hs; rfl)).1
      ⟨OptionT.record ⟨OptionValue.num 1, "One"⟩, rfl, rfl⟩).2⟩

end TurboNext
